import Mathlib

/-!
Verification development for the hydromt_fiat repository.

Shallow embedding of the parts of the code base that the specification
talks about: the FiatModel table registry (fiat.py set_tables), the hazard
map ingestion and risk stacking workflow (fiat.py setup_hazard), the
exposure vector builder (workflows/exposure_vector.py), and the JRC damage
value preprocessor (workflows/damage_values.py).

Python floats are embedded as rationals, pandas tables as Lean lists and
records, raised exceptions as Except errors.  Dictionaries keyed by name
(the model map registry, the tables registry) are embedded as
insertion-ordered association lists, matching Python dict semantics
(assignment to an existing key replaces in place, to a fresh key appends).
-/

namespace HydromtFiat

/-! ## Association lists standing for Python dicts -/

/-- Python dict assignment d[k] = v on an insertion-ordered association
list: replace in place when the key is present, append otherwise. -/
def assocSet {α : Type} : List (String × α) → String → α → List (String × α)
  | [], k, v => [(k, v)]
  | p :: t, k, v => if p.1 = k then (k, v) :: t else p :: assocSet t k v

/-- Python dict lookup d[k] as an Option. -/
def assocLookup {α : Type} (l : List (String × α)) (k : String) : Option α :=
  (l.find? (fun p => p.1 = k)).map (fun p => p.2)

/-! ## FiatModel.set_tables (fiat.py lines 792-809) -/

/-- The value passed as the df argument of set_tables: a pandas DataFrame,
a pandas Series, or any other Python object (which is rejected). The
payloads are abstract; set_tables never inspects them. -/
inductive PdObject : Type where
  | dataFrame (payload : List (String × Int))
  | series (payload : List Int)
  | other (descr : String)
deriving DecidableEq

def PdObject.isDataFrame : PdObject → Bool
  | .dataFrame _ => true
  | _ => false

def PdObject.isSeries : PdObject → Bool
  | .series _ => true
  | _ => false

/-- The parts of the FiatModel state that set_tables reads and writes:
the _tables dict and the _write / _read mode flags. -/
structure ModelTables : Type where
  tables : List (String × PdObject)
  writeMode : Bool
  readMode : Bool
deriving DecidableEq

/-- The two exceptions set_tables can raise. -/
inductive SetTablesError : Type where
  | valueError (msg : String)
  | ioError (msg : String)
deriving DecidableEq

/-- Embedding of FiatModel.set_tables.  Mirrors the source order: first the
type check on df (ValueError), then the overwrite check (IOError when the
name exists and the model is not in write mode; in read-and-write mode an
existing name is only logged), and finally the dict assignment. -/
def set_tables (m : ModelTables) (df : PdObject) (name : String) :
    Except SetTablesError ModelTables :=
  if ¬ (df.isDataFrame = true ∨ df.isSeries = true) then
    .error (.valueError "df type not recognized, should be pandas.DataFrame.")
  else if m.tables.any (fun p => p.1 = name) = true ∧ m.writeMode = false then
    .error (.ioError ("Cannot overwrite table " ++ name ++ " in read-only mode"))
  else
    .ok { m with tables := assocSet m.tables name df }

/-- A raised exception leaves the caller state untouched: running
set_tables yields the new state on success and the old one on error. -/
def set_tables_run (m : ModelTables) (df : PdObject) (name : String) : ModelTables :=
  match set_tables m df name with
  | .ok m2 => m2
  | .error _ => m

/-! ## FiatModel.setup_hazard (fiat.py lines 296-491)

One ingested hazard map is embedded as a record holding its source path
(the element of map_fn_lst), the derived map name (da_name), the map type
(the element of map_type_lst), and the resolved return period (the value
returned by check_maps_rp).  Raster pixel data plays no part in any claim
and is not modelled. -/

structure HazardMapSpec : Type where
  fn : String
  name : String
  mtype : String
  rp : Int
deriving DecidableEq

/-- The combined multi-band risk dataset built in the risk_output branch:
the per-band source rasters in concatenation order and the dataset-level
attributes written in fiat.py lines 439-444. -/
structure RiskDataset : Type where
  bands : List String
  returnperiod : List Int
  typeAttr : List String
  nameAttr : List String
  analysis : String
deriving DecidableEq

/-- An entry of the in-memory maps registry (self.maps): an individual
hazard raster or the combined risk dataset. -/
inductive MapEntry : Type where
  | raster (m : HazardMapSpec)
  | dataset (d : RiskDataset)
deriving DecidableEq

/-- The hazard configuration keys emitted by setup_hazard (fiat.py lines
453-491); the CRS key is not modelled since raster metadata is abstract. -/
structure HazardConfig : Type where
  file : String
  elevation_reference : String
  var_as_band : Bool
  risk : Bool
  return_periods : Option (List Int)
deriving DecidableEq

/-- The outcome of a successful setup_hazard run: the final maps registry
and the emitted hazard configuration. -/
structure SetupHazardResult : Type where
  registry : List (String × MapEntry)
  config : HazardConfig
deriving DecidableEq

/-- Modelled from the spec: check_files is imported from
workflows/hazard.py, which is absent from the source tree.  Per the spec,
every local-path source must exist on the filesystem before any load
begins, and a missing file fails fast with a MissingSourceError naming the
path.  The filesystem is embedded as the list of existing paths. -/
def check_files (fs : List String) (paths : List String) : Except String Unit :=
  match paths.find? (fun p => decide (p ∉ fs)) with
  | some p => .error ("MissingSourceError: " ++ p)
  | none => .ok ()

/-- Modelled from the spec: check_map_uniqueness is imported from
workflows/hazard.py, which is absent from the source tree.  Per the spec,
derived map names must be pairwise distinct and a collision fails with a
DuplicateMapNameError. -/
def check_map_uniqueness (names : List String) : Except String Unit :=
  if names.Nodup then .ok () else .error "DuplicateMapNameError"

/-- The per-map loop of setup_hazard as far as the registry is concerned:
each map is stored under its name with self.set_maps (fiat.py line 416). -/
def addMaps (reg : List (String × MapEntry)) (maps : List HazardMapSpec) :
    List (String × MapEntry) :=
  maps.foldl (fun r m => assocSet r m.name (.raster m)) reg

/-- Pruning of the registry after risk stacking (fiat.py lines 447-451):
every key but the last inserted one is popped. -/
def keepLast (l : List (String × MapEntry)) : List (String × MapEntry) :=
  l.drop (l.length - 1)

/-- Embedding of FiatModel.setup_hazard.  Control flow follows the source:
parameter checks and check_files run before the load loop; the loop fills
the registry, rp_list and map_name_lst in input order; check_map_uniqueness
runs after the loop; when risk_output is set the registry entries are
concatenated in registry order into one dataset named risk_maps whose
attributes take the lists as accumulated (the source never sorts them), the
individual entries are popped, and hazard.return_periods is emitted; the
remaining configuration keys are emitted last.  An empty map list would
fail in Python on the first registry index and is embedded as an error. -/
def setup_hazard (fs : List String) (maps : List HazardMapSpec)
    (risk_output : Bool) : Except String SetupHazardResult :=
  match check_files fs (maps.map (fun m => m.fn)) with
  | .error e => .error e
  | .ok _ =>
    match maps with
    | [] => .error "IndexError: no hazard maps"
    | m0 :: rest =>
      let reg0 := addMaps [] (m0 :: rest)
      let rp_list := (m0 :: rest).map (fun m => m.rp)
      let map_name_lst := (m0 :: rest).map (fun m => m.name)
      match check_map_uniqueness map_name_lst with
      | .error e => .error e
      | .ok _ =>
        let da_type := ((m0 :: rest).getLast (List.cons_ne_nil m0 rest)).mtype
        let reg1 :=
          if risk_output then
            keepLast (assocSet reg0 "risk_maps"
              (.dataset
                { bands := reg0.map (fun p => p.1)
                  returnperiod := rp_list
                  typeAttr := (m0 :: rest).map (fun m => m.mtype)
                  nameAttr := map_name_lst
                  analysis := "risk" }))
          else reg0
        match reg1 with
        | [] => .error "IndexError: empty maps registry"
        | e0 :: _ =>
          .ok
            { registry := reg1
              config :=
                { file := "hazard/" ++ e0.1 ++ ".nc"
                  elevation_reference :=
                    if da_type = "water_depth" then "dem" else "datum"
                  var_as_band := risk_output
                  risk := risk_output
                  return_periods := if risk_output then some rp_list else none } }

/-- The risk dataset that a collision-free risk run records, written out in
terms of the input maps. -/
def mergedOf (maps : List HazardMapSpec) : RiskDataset :=
  { bands := maps.map (fun m => m.name)
    returnperiod := maps.map (fun m => m.rp)
    typeAttr := maps.map (fun m => m.mtype)
    nameAttr := maps.map (fun m => m.name)
    analysis := "risk" }

/-- Concrete scenario of the spec: three hazard maps whose return periods
are supplied out of order as 100, 2, 10. -/
def exMaps : List HazardMapSpec :=
  [{ fn := "rp100.tif", name := "m100", mtype := "water_depth", rp := 100 },
   { fn := "rp2.tif", name := "m2", mtype := "water_depth", rp := 2 },
   { fn := "rp10.tif", name := "m10", mtype := "water_depth", rp := 10 }]

/-- The filesystem on which all three scenario maps exist. -/
def exFs : List String := ["rp100.tif", "rp2.tif", "rp10.tif"]

/-! ## ExposureVector.setup_from_single_source
(workflows/exposure_vector.py lines 81-120) -/

/-- The two frames the NSI branch of setup_from_single_source writes,
restricted to the Object ID column: the fetched source frame (source_data)
and the exposure frame being built (self.exposure_db). -/
structure SingleSourceState : Type where
  source_ids : List Int
  exposure_ids : List Int
  extraction_method : String
deriving DecidableEq

/-- Embedding of the NSI branch of ExposureVector.setup_from_single_source,
restricted to the Object ID column.  The exposure column is filled by
copying the source column (line 106, a pandas column copy); when the
copied column is not unique, sequential IDs 1..n are generated and
assigned to the source frame (line 112 writes source_data, not
exposure_db), so the exposure column keeps the copied values.  NSI forces
the centroid extraction method. -/
def setup_from_single_source (sourceIds : List Int) : SingleSourceState :=
  let exposureIds := sourceIds
  let sourceIds2 :=
    if exposureIds.length ≠ exposureIds.dedup.length then
      (List.range' 1 exposureIds.length).map (fun n => (n : Int))
    else sourceIds
  { source_ids := sourceIds2
    exposure_ids := exposureIds
    extraction_method := "centroid" }

/-! ## ExposureVector.setup_max_potential_damage
(workflows/exposure_vector.py lines 131-154) -/

/-- One exposure row: the Object ID and the named numeric cells. -/
structure ExposureRow : Type where
  objectId : Int
  cells : List (String × ℚ)
deriving DecidableEq

/-- The exposure DataFrame: its column names and its rows. -/
structure ExposureTable : Type where
  cols : List String
  rows : List ExposureRow
deriving DecidableEq

/-- Python substring test: needle in hay. -/
def strContains (hay needle : String) : Bool :=
  (List.range (hay.length + 1)).any (fun i => needle.isPrefixOf (hay.drop i))

/-- A Python argument that is either a str or a list of ints. -/
inductive PyStrOrIntList : Type where
  | str (s : String)
  | ints (l : List Int)
deriving DecidableEq

/-- A Python argument that is either a str or a list of strs. -/
inductive PyStrOrStrList : Type where
  | str (s : String)
  | strs (l : List String)
deriving DecidableEq

/-- Python str.lower over the characters of the string. -/
def pyLower (s : String) : String := String.mk (s.toList.map Char.toLower)

/-- Embedding of ExposureVector.get_object_ids (lines 368-377), returning
row indices.  A list argument fails on the objectids.lower() attribute
access before anything else happens; a string other than all reaches
pandas isin, which rejects bare strings with a TypeError. -/
def get_object_ids (db : ExposureTable) (objectids : PyStrOrIntList) :
    Except String (List Nat) :=
  match objectids with
  | .ints _ => .error "AttributeError: list object has no attribute lower"
  | .str s =>
    if pyLower s = "all" then .ok (List.range db.rows.length)
    else .error "TypeError: only list-like objects are allowed to be passed to isin"

/-- The damage columns selected in setup_max_potential_damage (lines
146-151): for all, every column containing the substring Max Potential
Damage:; for any other string, one column per character of the string (the
comprehension iterates the characters); a list argument fails on
lower(). -/
def select_damage_cols (cols : List String) (damage_types : PyStrOrStrList) :
    Except String (List String) :=
  match damage_types with
  | .strs _ => .error "AttributeError: list object has no attribute lower"
  | .str s =>
    if pyLower s = "all" then
      .ok (cols.filter (fun c => strContains c "Max Potential Damage:"))
    else
      .ok (s.toList.map (fun t => "Max Potential Damage: " ++ t.toString))

/-- Overwrite the selected named cells of one row with the given value. -/
def updateRow (colsSel : List String) (v : ℚ) (r : ExposureRow) : ExposureRow :=
  { r with cells := r.cells.map (fun c => if c.1 ∈ colsSel then (c.1, v) else c) }

/-- Overwrite the selected cells of the rows whose position is in idx. -/
def assignRows (v : ℚ) (colsSel : List String) (idx : List Nat) :
    Nat → List ExposureRow → List ExposureRow
  | _, [] => []
  | i, r :: t =>
    (if i ∈ idx then updateRow colsSel v r else r) ::
      assignRows v colsSel idx (i + 1) t

/-- The table after the positional cell assignment. -/
def assignCells (db : ExposureTable) (idx : List Nat) (colsSel : List String)
    (v : ℚ) : ExposureTable :=
  { db with rows := assignRows v colsSel idx 0 db.rows }

/-- Embedding of ExposureVector.setup_max_potential_damage (lines 131-154):
resolve the object IDs to row indices, select the damage columns, then
write the value into the selected cells (the write denoted by the chained
pandas assignment on line 154). -/
def setup_max_potential_damage (db : ExposureTable) (objectids : PyStrOrIntList)
    (damage_types : PyStrOrStrList) (max_potential_damage : ℚ) :
    Except String ExposureTable :=
  match get_object_ids db objectids with
  | .error e => .error e
  | .ok idx =>
    match select_damage_cols db.cols damage_types with
    | .error e => .error e
    | .ok colsSel => .ok (assignCells db idx colsSel max_potential_damage)

/-- An uncaught exception leaves the table as it was. -/
def setup_max_potential_damage_run (db : ExposureTable)
    (objectids : PyStrOrIntList) (damage_types : PyStrOrStrList) (v : ℚ) :
    ExposureTable :=
  match setup_max_potential_damage db objectids damage_types v with
  | .ok db2 => db2
  | .error _ => db

/-! ## ExposureVector.check_required_columns
(workflows/exposure_vector.py lines 431-442) -/

/-- The class constant _REQUIRED_COLUMNS. -/
def _REQUIRED_COLUMNS : List String :=
  ["Object ID", "Extraction Method", "Ground Floor Height"]

/-- The class constant _REQUIRED_VARIABLE_COLUMNS (the braces of the
Python format placeholders written as escapes). -/
def _REQUIRED_VARIABLE_COLUMNS : List String :=
  ["Damage Function: \x7b\x7d", "Max Potential Damage: \x7b\x7d"]

/-- The opening and closing format-placeholder characters. -/
def lbraceChar : Char := Char.ofNat 123

/-- See lbraceChar. -/
def rbraceChar : Char := Char.ofNat 125

/-- Replace each two-character placeholder by the argument characters. -/
def replaceAux (arg : List Char) : List Char → List Char
  | [] => []
  | [c] => [c]
  | c1 :: c2 :: t =>
    if c1 = lbraceChar ∧ c2 = rbraceChar then arg ++ replaceAux arg t
    else c1 :: replaceAux arg (c2 :: t)

/-- Python str.format with a single positional argument. -/
def pyFormat (template arg : String) : String :=
  String.mk (replaceAux arg.toList template.toList)

/-- try: assert cond / except AssertionError: print(msg) — the assertion
error is always caught, so one loop step reduces to collecting msg when
the condition fails. -/
def tryAssert (cond : Bool) (msg : String) : List String :=
  if cond then [] else [msg]

/-- Embedding of ExposureVector.check_required_columns (lines 431-442):
both loops collect the messages they print; nothing is raised and the
exposure table is returned untouched. -/
def check_required_columns (db : ExposureTable) : List String × ExposureTable :=
  (_REQUIRED_COLUMNS.foldl
      (fun acc col =>
        acc ++ tryAssert (db.cols.contains col)
          ("Required column " ++ col ++ " not found in exposure data.")) []
    ++ _REQUIRED_VARIABLE_COLUMNS.foldl
      (fun acc col =>
        acc ++ tryAssert (db.cols.contains (pyFormat col "Structure"))
          ("Required variable column " ++ col ++ " not found in exposure data.")) [],
   db)

/-! ## Damage function truncation -/

/-- Piecewise-linear evaluation of a damage curve between the breakpoint
(d0, v0) and the remaining breakpoints. -/
def interpFrom (d0 : ℚ) (v0 : ℚ) : List (ℚ × ℚ) → ℚ → ℚ
  | [], _ => v0
  | (d1, v1) :: rest, x =>
    if x ≤ d1 then v0 + (v1 - v0) * (x - d0) / (d1 - d0)
    else interpFrom d1 v1 rest x

/-- Piecewise-linear evaluation of a damage curve at a depth: the first
value before the curve starts, the last value after it ends, linear
interpolation between consecutive breakpoints. -/
def interp (c : List (ℚ × ℚ)) (x : ℚ) : ℚ :=
  match c with
  | [] => 0
  | (d0, v0) :: rest => if x ≤ d0 then v0 else interpFrom d0 v0 rest x

/-- Insert a breakpoint (t, v) into a depth-sorted curve, replacing the
existing breakpoint when one already sits at depth t. -/
def insertPoint (t : ℚ) (v : ℚ) : List (ℚ × ℚ) → List (ℚ × ℚ)
  | [] => [(t, v)]
  | (d, w) :: rest =>
    if t < d then (t, v) :: (d, w) :: rest
    else if t = d then (t, v) :: rest
    else (d, w) :: insertPoint t v rest

/-- Modelled from the spec: ExposureVector.truncate_damage_function, the
operation exercised by test_truncate_damage_function.py, has no operational
implementation in the source tree (the body of measure_floodproof is an
inert prototype docstring).  Per the spec, truncation interpolates a new
zero-crossing point into the curve — the breakpoint (truncation depth, 0)
— and zeroes all damage fractions below the truncation depth, so the
curve is zero up to the truncation depth and keeps its breakpoints above
it. -/
def truncate_damage_function (c : List (ℚ × ℚ)) (floodproof_to : ℚ) :
    List (ℚ × ℚ) :=
  (insertPoint floodproof_to 0 c).map
    (fun p => if p.1 < floodproof_to then (p.1, 0) else p)

/-- The damage curve of the spec scenario for truncation. -/
def exCurve : List (ℚ × ℚ) := [(0, 0), (1, 1/2), (2, 1)]

/-! ## preprocess_jrc_damage_values (workflows/damage_values.py lines 19-83) -/

/-- One row of the JRC base damage value table after the column renaming
of damage_values.py lines 43-48. -/
structure JrcRow : Type where
  country : String
  residential : ℚ
  commercial : ℚ
  industrial : ℚ
deriving DecidableEq

/-- The max-damage adjustment dictionary, one field per key. -/
structure JrcAdjustments : Type where
  construction_cost_vs_depreciated_value_res : ℚ
  construction_cost_vs_depreciated_value_com : ℚ
  construction_cost_vs_depreciated_value_ind : ℚ
  max_damage_content_inventory_res : ℚ
  max_damage_content_inventory_com : ℚ
  max_damage_content_inventory_ind : ℚ
  undamageable_part_res : ℚ
  undamageable_part_com : ℚ
  undamageable_part_ind : ℚ
  material_used_res : ℚ
  material_used_com : ℚ
  material_used_ind : ℚ
deriving DecidableEq

/-- default_jrc_max_damage_adjustment_values (damage_values.py lines
3-16). -/
def default_jrc_max_damage_adjustment_values : JrcAdjustments :=
  { construction_cost_vs_depreciated_value_res := 3/5
    construction_cost_vs_depreciated_value_com := 3/5
    construction_cost_vs_depreciated_value_ind := 3/5
    max_damage_content_inventory_res := 1/2
    max_damage_content_inventory_com := 1
    max_damage_content_inventory_ind := 3/2
    undamageable_part_res := 2/5
    undamageable_part_com := 2/5
    undamageable_part_ind := 2/5
    material_used_res := 1
    material_used_com := 1
    material_used_ind := 1 }

/-- The structure / content / total damage values recorded for one
building type (the struc field stands for the structure key). -/
structure DamageValueEntry : Type where
  struc : ℚ
  content : ℚ
  total : ℚ
deriving DecidableEq

/-- The lookup returned by preprocess_jrc_damage_values, keyed by the
three building types. -/
structure JrcDamageValues : Type where
  residential : DamageValueEntry
  commercial : DamageValueEntry
  industrial : DamageValueEntry
deriving DecidableEq

/-- One damage-value entry as computed in damage_values.py lines 74-81. -/
def jrcEntry (base ccdv mdci up mu : ℚ) : DamageValueEntry :=
  { struc := base * ccdv * (1 - up) * mu
    content := base * ccdv * (1 - up) * mu * mdci
    total := base * ccdv * (1 - up) * mu + base * ccdv * (1 - up) * mu * mdci }

/-- Embedding of preprocess_jrc_damage_values (damage_values.py lines
19-83): lower-case the country column, filter on the lower-cased country,
take the first matching row per building-type column, and adjust it with
the building-type factors.  An empty filter result fails in Python on the
values[0] index and is embedded as an error. -/
def preprocess_jrc_damage_values (jrc_base_damage_values : List JrcRow)
    (country : String) (adj : JrcAdjustments) : Except String JrcDamageValues :=
  let lowered := jrc_base_damage_values.map
    (fun r => { r with country := pyLower r.country })
  match lowered.filter (fun r => r.country = pyLower country) with
  | [] => .error "IndexError: index 0 is out of bounds for axis 0 with size 0"
  | row :: _ =>
    .ok
      { residential :=
          jrcEntry row.residential adj.construction_cost_vs_depreciated_value_res
            adj.max_damage_content_inventory_res adj.undamageable_part_res
            adj.material_used_res
        commercial :=
          jrcEntry row.commercial adj.construction_cost_vs_depreciated_value_com
            adj.max_damage_content_inventory_com adj.undamageable_part_com
            adj.material_used_com
        industrial :=
          jrcEntry row.industrial adj.construction_cost_vs_depreciated_value_ind
            adj.max_damage_content_inventory_ind adj.undamageable_part_ind
            adj.material_used_ind }

/-- A one-row JRC base value table. -/
def exJrcTable : List JrcRow :=
  [{ country := "Germany", residential := 1000, commercial := 2000,
     industrial := 3000 }]

end HydromtFiat

namespace HydromtFiat

theorem assocLookup_assocSet {α : Type} (l : List (String × α)) (k : String) (v : α) :
    assocLookup (assocSet l k v) k = some v := by
  induction l with
  | nil => simp [assocSet, assocLookup, List.find?]
  | cons p t ih =>
    by_cases h : p.1 = k
    · simp [assocSet, h, assocLookup, List.find?]
    · simp only [assocSet, if_neg h]
      simpa [assocLookup, List.find?, h] using ih

/-- C9: set_tables rejects a df that is neither a DataFrame nor a Series
with a ValueError, rejects an existing name in read-only mode with an
IOError, stores df under name otherwise, and in both error cases leaves
the tables mapping unchanged. -/
theorem set_tables_spec (m : ModelTables) (df : PdObject) (name : String) :
    (¬ (df.isDataFrame = true ∨ df.isSeries = true) →
      set_tables m df name =
        .error (.valueError "df type not recognized, should be pandas.DataFrame.") ∧
      set_tables_run m df name = m) ∧
    ((df.isDataFrame = true ∨ df.isSeries = true) →
      m.tables.any (fun p => p.1 = name) = true → m.writeMode = false →
      set_tables m df name =
        .error (.ioError ("Cannot overwrite table " ++ name ++ " in read-only mode")) ∧
      set_tables_run m df name = m) ∧
    ((df.isDataFrame = true ∨ df.isSeries = true) →
      ¬ (m.tables.any (fun p => p.1 = name) = true ∧ m.writeMode = false) →
      set_tables m df name = .ok { m with tables := assocSet m.tables name df } ∧
      assocLookup (set_tables_run m df name).tables name = some df) := by
  refine ⟨?_, ?_, ?_⟩
  · intro h
    constructor
    · simp [set_tables, h]
    · simp [set_tables_run, set_tables, h]
  · intro h hmem hw
    constructor
    · simp [set_tables, h, hmem, hw]
    · simp [set_tables_run, set_tables, h, hmem, hw]
  · intro h hno
    have h1 : set_tables m df name = .ok { m with tables := assocSet m.tables name df } := by
      unfold set_tables
      rw [if_neg (not_not_intro h), if_neg hno]
    refine ⟨h1, ?_⟩
    simp [set_tables_run, h1, assocLookup_assocSet]

/-- Witness for set_tables_spec: all three branches exercised at concrete
inputs. -/
theorem set_tables_spec_witness :
    (set_tables ⟨[], true, false⟩ (.other "int") "exposure" =
      .error (.valueError "df type not recognized, should be pandas.DataFrame.") ∧
      set_tables_run ⟨[], true, false⟩ (.other "int") "exposure" = ⟨[], true, false⟩) ∧
    (set_tables ⟨[("exposure", .series [1])], false, true⟩ (.dataFrame []) "exposure" =
      .error (.ioError ("Cannot overwrite table " ++ "exposure" ++ " in read-only mode")) ∧
      set_tables_run ⟨[("exposure", .series [1])], false, true⟩ (.dataFrame []) "exposure" =
        ⟨[("exposure", .series [1])], false, true⟩) ∧
    (set_tables ⟨[], true, false⟩ (.dataFrame [("Object ID", 1)]) "exposure" =
      .ok ⟨[("exposure", .dataFrame [("Object ID", 1)])], true, false⟩ ∧
      assocLookup (set_tables_run ⟨[], true, false⟩
        (.dataFrame [("Object ID", 1)]) "exposure").tables "exposure" =
        some (.dataFrame [("Object ID", 1)])) := by
  refine ⟨?_, ?_, ?_⟩
  · exact (set_tables_spec ⟨[], true, false⟩ (.other "int") "exposure").1 (by decide)
  · exact (set_tables_spec ⟨[("exposure", .series [1])], false, true⟩
      (.dataFrame []) "exposure").2.1 (by decide) (by decide) (by decide)
  · have h := (set_tables_spec ⟨[], true, false⟩
      (.dataFrame [("Object ID", 1)]) "exposure").2.2 (by decide) (by decide)
    exact ⟨h.1, h.2⟩

/-! ## setup_hazard lemmas -/

theorem assocSet_fresh {α : Type} (l : List (String × α)) (k : String) (v : α)
    (h : ∀ p ∈ l, p.1 ≠ k) : assocSet l k v = l ++ [(k, v)] := by
  induction l with
  | nil => rfl
  | cons p t ih =>
    have hp : p.1 ≠ k := h p (by simp)
    simp only [assocSet, if_neg hp, List.cons_append, List.cons.injEq, true_and]
    exact ih (fun q hq => h q (by simp [hq]))

theorem addMaps_eq (maps : List HazardMapSpec) :
    ∀ acc : List (String × MapEntry),
      (maps.map (fun m => m.name)).Nodup →
      (∀ p ∈ acc, p.1 ∉ maps.map (fun m => m.name)) →
      addMaps acc maps = acc ++ maps.map (fun m => (m.name, MapEntry.raster m)) := by
  induction maps with
  | nil => intro acc _ _; simp [addMaps]
  | cons m t ih =>
    intro acc hnd hdisj
    have hnd' := List.nodup_cons.mp
      (show (m.name :: t.map (fun m => m.name)).Nodup from hnd)
    have hmfresh : ∀ p ∈ acc, p.1 ≠ m.name := by
      intro p hp hc
      exact (hdisj p hp) (by simp [hc])
    have step : addMaps acc (m :: t) = addMaps (assocSet acc m.name (.raster m)) t := rfl
    rw [step, assocSet_fresh acc m.name _ hmfresh]
    rw [ih (acc ++ [(m.name, MapEntry.raster m)]) hnd'.2 ?_]
    · simp
    · intro p hp
      rcases List.mem_append.mp hp with hp1 | hp1
      · have := hdisj p hp1
        simp only [List.map_cons, List.mem_cons] at this
        intro hc; exact this (Or.inr hc)
      · simp only [List.mem_singleton] at hp1
        subst hp1
        exact hnd'.1

theorem keepLast_append (l : List (String × MapEntry)) (x : String × MapEntry) :
    keepLast (l ++ [x]) = [x] := by
  simp only [keepLast, List.length_append, List.length_singleton, Nat.add_sub_cancel]
  exact List.drop_left l [x]

theorem check_files_ok (fs paths : List String) (h : ∀ p ∈ paths, p ∈ fs) :
    check_files fs paths = .ok () := by
  unfold check_files
  rw [List.find?_eq_none.mpr]
  intro p hp
  simpa using h p hp

theorem check_files_missing (fs paths : List String) (p : String)
    (hp : p ∈ paths) (hm : p ∉ fs) :
    ∃ q, q ∈ paths ∧ q ∉ fs ∧
      check_files fs paths = .error ("MissingSourceError: " ++ q) := by
  have hsome : (paths.find? (fun x => decide (x ∉ fs))).isSome := by
    rw [List.find?_isSome]
    exact ⟨p, hp, by simpa using hm⟩
  obtain ⟨q, hq⟩ := Option.isSome_iff_exists.mp hsome
  refine ⟨q, List.mem_of_find?_eq_some hq, ?_, ?_⟩
  · simpa using List.find?_some hq
  · unfold check_files
    rw [hq]

/-- Collision-free risk run of setup_hazard, computed in closed form. -/
theorem setup_hazard_risk_eq (fs : List String) (maps : List HazardMapSpec)
    (hne : maps ≠ [])
    (hnodup : (maps.map (fun m => m.name)).Nodup)
    (hrm : "risk_maps" ∉ maps.map (fun m => m.name))
    (hfs : ∀ p ∈ maps.map (fun m => m.fn), p ∈ fs) :
    setup_hazard fs maps true =
      .ok { registry := [("risk_maps", MapEntry.dataset (mergedOf maps))]
            config :=
              { file := "hazard/" ++ "risk_maps" ++ ".nc"
                elevation_reference :=
                  if (maps.getLast hne).mtype = "water_depth" then "dem" else "datum"
                var_as_band := true
                risk := true
                return_periods := some (maps.map (fun m => m.rp)) } } := by
  obtain ⟨m0, rest, rfl⟩ : ∃ a t, maps = a :: t := by
    cases maps with
    | nil => exact absurd rfl hne
    | cons a t => exact ⟨a, t, rfl⟩
  have hcf : check_files fs ((m0 :: rest).map (fun m => m.fn)) = .ok () :=
    check_files_ok _ _ hfs
  have hreg : addMaps [] (m0 :: rest) =
      (m0 :: rest).map (fun m => (m.name, MapEntry.raster m)) := by
    simpa using addMaps_eq (m0 :: rest) [] hnodup (by simp)
  have hfresh : ∀ p ∈ (m0 :: rest).map (fun m => (m.name, MapEntry.raster m)),
      p.1 ≠ "risk_maps" := by
    intro p hp
    simp only [List.mem_map] at hp
    obtain ⟨m, hm, rfl⟩ := hp
    intro hc
    exact hrm (List.mem_map.mpr ⟨m, hm, hc⟩)
  simp only [setup_hazard, hcf, check_map_uniqueness, hnodup, if_true, hreg,
    assocSet_fresh _ _ _ hfresh, keepLast_append]
  simp [mergedOf, List.map_map]

/-- C1 counterexample: three maps with return periods supplied as
100, 2, 10 produce a stacked dataset whose band order and recorded
return-period attribute are 100, 2, 10 — input order, not ascending, and
not strictly increasing. -/
theorem setup_hazard_unsorted_counterexample :
    setup_hazard exFs exMaps true =
      .ok { registry := [("risk_maps", MapEntry.dataset (mergedOf exMaps))]
            config :=
              { file := "hazard/" ++ "risk_maps" ++ ".nc"
                elevation_reference := "dem"
                var_as_band := true
                risk := true
                return_periods := some [100, 2, 10] } } ∧
    (mergedOf exMaps).returnperiod = [100, 2, 10] ∧
    (mergedOf exMaps).returnperiod ≠ [2, 10, 100] ∧
    ¬ List.Chain' (fun a b => a < b) (mergedOf exMaps).returnperiod := by
  refine ⟨rfl, by decide, by decide, ?_⟩
  simp [mergedOf, exMaps, List.chain'_cons]

/-- C1 amended: a risk_output run records the stacked bands and the
return-period attribute in the input order of the maps, and the recorded
attribute is strictly increasing exactly when the supplied return periods
already were. -/
theorem setup_hazard_risk_input_order (fs : List String) (maps : List HazardMapSpec)
    (hne : maps ≠ [])
    (hnodup : (maps.map (fun m => m.name)).Nodup)
    (hrm : "risk_maps" ∉ maps.map (fun m => m.name))
    (hfs : ∀ p ∈ maps.map (fun m => m.fn), p ∈ fs) :
    ∃ cfg : HazardConfig,
      setup_hazard fs maps true =
        .ok { registry := [("risk_maps", MapEntry.dataset (mergedOf maps))]
              config := cfg } ∧
      (mergedOf maps).returnperiod = maps.map (fun m => m.rp) ∧
      (mergedOf maps).bands = maps.map (fun m => m.name) ∧
      cfg.return_periods = some (maps.map (fun m => m.rp)) ∧
      (List.Chain' (fun a b => a < b) (mergedOf maps).returnperiod ↔
        List.Chain' (fun a b => a < b) (maps.map (fun m => m.rp))) := by
  exact ⟨_, setup_hazard_risk_eq fs maps hne hnodup hrm hfs, rfl, rfl, rfl, Iff.rfl⟩

/-- Witness for setup_hazard_risk_input_order at the concrete scenario. -/
theorem setup_hazard_risk_input_order_witness :
    ∃ cfg : HazardConfig,
      setup_hazard exFs exMaps true =
        .ok { registry := [("risk_maps", MapEntry.dataset (mergedOf exMaps))]
              config := cfg } ∧
      (mergedOf exMaps).returnperiod = exMaps.map (fun m => m.rp) ∧
      (mergedOf exMaps).bands = exMaps.map (fun m => m.name) ∧
      cfg.return_periods = some (exMaps.map (fun m => m.rp)) ∧
      (List.Chain' (fun a b => a < b) (mergedOf exMaps).returnperiod ↔
        List.Chain' (fun a b => a < b) (exMaps.map (fun m => m.rp))) :=
  setup_hazard_risk_input_order exFs exMaps (by decide) (by decide) (by decide)
    (by decide)

/-- C3: after a risk_output run the registry holds exactly one entry, the
combined risk dataset, and no individual per-map entry is left. -/
theorem setup_hazard_risk_registry_single (fs : List String)
    (maps : List HazardMapSpec)
    (hne : maps ≠ [])
    (hnodup : (maps.map (fun m => m.name)).Nodup)
    (hrm : "risk_maps" ∉ maps.map (fun m => m.name))
    (hfs : ∀ p ∈ maps.map (fun m => m.fn), p ∈ fs) :
    ∃ r : SetupHazardResult,
      setup_hazard fs maps true = .ok r ∧
      r.registry = [("risk_maps", MapEntry.dataset (mergedOf maps))] ∧
      r.registry.length = 1 ∧
      ∀ m ∈ maps, assocLookup r.registry m.name = none := by
  refine ⟨_, setup_hazard_risk_eq fs maps hne hnodup hrm hfs, rfl, rfl, ?_⟩
  intro m hm
  simp only [assocLookup, List.find?]
  have hne' : ("risk_maps" = m.name) = False := by
    simp only [eq_iff_iff, iff_false]
    intro hc
    exact hrm (List.mem_map.mpr ⟨m, hm, hc.symm⟩)
  simp [hne']

/-- Witness for setup_hazard_risk_registry_single at the concrete
scenario. -/
theorem setup_hazard_risk_registry_single_witness :
    ∃ r : SetupHazardResult,
      setup_hazard exFs exMaps true = .ok r ∧
      r.registry = [("risk_maps", MapEntry.dataset (mergedOf exMaps))] ∧
      r.registry.length = 1 ∧
      ∀ m ∈ exMaps, assocLookup r.registry m.name = none :=
  setup_hazard_risk_registry_single exFs exMaps (by decide) (by decide) (by decide)
    (by decide)

/-- C5: a missing local-path source makes setup_hazard fail with an error
naming the path, and no run with a missing source ever produces a maps
registry. -/
theorem setup_hazard_missing_source (fs : List String) (maps : List HazardMapSpec)
    (risk_output : Bool) (p : String)
    (hp : p ∈ maps.map (fun m => m.fn)) (hm : p ∉ fs) :
    ∃ q, q ∈ maps.map (fun m => m.fn) ∧ q ∉ fs ∧
      setup_hazard fs maps risk_output = .error ("MissingSourceError: " ++ q) ∧
      ∀ r : SetupHazardResult, setup_hazard fs maps risk_output ≠ .ok r := by
  obtain ⟨q, hq1, hq2, hq3⟩ := check_files_missing fs (maps.map (fun m => m.fn)) p hp hm
  refine ⟨q, hq1, hq2, ?_, ?_⟩
  · simp only [setup_hazard, hq3]
  · intro r hr
    rw [show setup_hazard fs maps risk_output =
      .error ("MissingSourceError: " ++ q) from by simp only [setup_hazard, hq3]] at hr
    exact Except.noConfusion hr

/-- Witness for setup_hazard_missing_source: the scenario run on a
filesystem from which rp2.tif is absent. -/
theorem setup_hazard_missing_source_witness :
    ∃ q, q ∈ exMaps.map (fun m => m.fn) ∧ q ∉ ["rp100.tif", "rp10.tif"] ∧
      setup_hazard ["rp100.tif", "rp10.tif"] exMaps true =
        .error ("MissingSourceError: " ++ q) ∧
      ∀ r : SetupHazardResult,
        setup_hazard ["rp100.tif", "rp10.tif"] exMaps true ≠ .ok r :=
  setup_hazard_missing_source ["rp100.tif", "rp10.tif"] exMaps true "rp2.tif"
    (by decide) (by decide)

/-- C6: the emitted hazard.elevation_reference is dem when the hazard map
type is water_depth and datum otherwise. -/
theorem setup_hazard_elevation_reference (fs : List String)
    (maps : List HazardMapSpec) (risk_output : Bool) (r : SetupHazardResult)
    (t : String) (hty : ∀ m ∈ maps, m.mtype = t)
    (h : setup_hazard fs maps risk_output = .ok r) :
    r.config.elevation_reference = if t = "water_depth" then "dem" else "datum" := by
  cases maps with
  | nil => simp [setup_hazard, check_files, List.find?] at h
  | cons m0 rest =>
    simp only [setup_hazard] at h
    split at h
    · exact absurd h (by simp)
    · split at h
      · exact absurd h (by simp)
      · split at h
        · exact absurd h (by simp)
        · injection h with h
          subst h
          simp only
          rw [hty ((m0 :: rest).getLast (List.cons_ne_nil m0 rest))
            (List.getLast_mem (List.cons_ne_nil m0 rest))]

/-- Witness for setup_hazard_elevation_reference: a single-map event run
over a water-depth map. -/
theorem setup_hazard_elevation_reference_witness :
    ({ registry := [("ev", MapEntry.raster
          { fn := "ev.tif", name := "ev", mtype := "water_depth", rp := 1 })]
       config :=
         { file := "hazard/" ++ "ev" ++ ".nc"
           elevation_reference := "dem"
           var_as_band := false
           risk := false
           return_periods := none } } : SetupHazardResult).config.elevation_reference =
      if "water_depth" = "water_depth" then "dem" else "datum" :=
  setup_hazard_elevation_reference ["ev.tif"]
    [{ fn := "ev.tif", name := "ev", mtype := "water_depth", rp := 1 }] false _
    "water_depth" (by decide) rfl

/-! ## Exposure vector theorems -/

/-- C2 (code bug): on a source whose Object ID column is not unique, the
freshly generated sequential IDs land in the discarded source frame while
the exposure table keeps the duplicated IDs — it does not end up with
unique ascending IDs starting at 1. -/
theorem setup_from_single_source_duplicate_ids :
    (setup_from_single_source [7, 7]).source_ids = [1, 2] ∧
    (setup_from_single_source [7, 7]).exposure_ids = [7, 7] ∧
    (setup_from_single_source [7, 7]).exposure_ids ≠ [1, 2] ∧
    ¬ (setup_from_single_source [7, 7]).exposure_ids.Nodup := by
  refine ⟨by decide, by decide, by decide, by decide⟩

theorem updateRow_idem (colsSel : List String) (v : ℚ) (r : ExposureRow) :
    updateRow colsSel v (updateRow colsSel v r) = updateRow colsSel v r := by
  have hpt : ∀ c : String × ℚ,
      (fun c : String × ℚ => if c.1 ∈ colsSel then (c.1, v) else c)
        ((fun c : String × ℚ => if c.1 ∈ colsSel then (c.1, v) else c) c) =
      (fun c : String × ℚ => if c.1 ∈ colsSel then (c.1, v) else c) c := by
    intro c
    by_cases hc : c.1 ∈ colsSel
    · simp [hc]
    · simp [hc]
  simp only [updateRow, List.map_map]
  congr 1
  exact List.map_congr_left (fun c _ => hpt c)

theorem assignRows_idem (v : ℚ) (colsSel : List String) (idx : List Nat)
    (rows : List ExposureRow) :
    ∀ i, assignRows v colsSel idx i (assignRows v colsSel idx i rows) =
      assignRows v colsSel idx i rows := by
  induction rows with
  | nil => intro i; rfl
  | cons r t ih =>
    intro i
    simp only [assignRows]
    congr 1
    · by_cases hi : i ∈ idx
      · simp [hi, updateRow_idem]
      · simp [hi]
    · exact ih (i + 1)

theorem assignRows_length (v : ℚ) (colsSel : List String) (idx : List Nat)
    (rows : List ExposureRow) :
    ∀ i, (assignRows v colsSel idx i rows).length = rows.length := by
  induction rows with
  | nil => intro i; rfl
  | cons r t ih =>
    intro i
    simp only [assignRows, List.length_cons]
    exact congrArg (· + 1) (ih (i + 1))

/-- C7: running the max-potential-damage override twice with the same
object IDs, damage types and value leaves the exposure table in the same
final state as running it once. -/
theorem setup_max_potential_damage_idempotent (db : ExposureTable)
    (objectids : PyStrOrIntList) (damage_types : PyStrOrStrList) (v : ℚ) :
    setup_max_potential_damage_run
      (setup_max_potential_damage_run db objectids damage_types v)
      objectids damage_types v =
    setup_max_potential_damage_run db objectids damage_types v := by
  cases objectids with
  | ints l =>
    simp [setup_max_potential_damage_run, setup_max_potential_damage, get_object_ids]
  | str s =>
    by_cases hs : pyLower s = "all"
    · cases damage_types with
      | strs l =>
        simp [setup_max_potential_damage_run, setup_max_potential_damage,
          get_object_ids, select_damage_cols, hs]
      | str s2 =>
        by_cases hs2 : pyLower s2 = "all"
        · simp only [setup_max_potential_damage_run, setup_max_potential_damage,
            get_object_ids, select_damage_cols, hs, hs2, if_true, assignCells]
          simp only [assignRows_length, assignRows_idem]
        · simp only [setup_max_potential_damage_run, setup_max_potential_damage,
            get_object_ids, select_damage_cols, hs, hs2, if_true, if_false,
            assignCells]
          simp only [assignRows_length, assignRows_idem]
    · simp [setup_max_potential_damage_run, setup_max_potential_damage,
        get_object_ids, hs]

/-- C8: check_required_columns completes without raising, leaves the
exposure table unchanged, and reports every missing required column as a
collected warning message. -/
theorem check_required_columns_spec (db : ExposureTable) :
    (check_required_columns db).2 = db ∧
    (∀ col ∈ _REQUIRED_COLUMNS, db.cols.contains col = false →
      ("Required column " ++ col ++ " not found in exposure data.") ∈
        (check_required_columns db).1) ∧
    (∀ col ∈ _REQUIRED_VARIABLE_COLUMNS,
      db.cols.contains (pyFormat col "Structure") = false →
      ("Required variable column " ++ col ++ " not found in exposure data.") ∈
        (check_required_columns db).1) := by
  refine ⟨rfl, ?_, ?_⟩
  · intro col hcol hmiss
    fin_cases hcol <;>
      (simp [check_required_columns, _REQUIRED_COLUMNS, _REQUIRED_VARIABLE_COLUMNS,
        tryAssert, hmiss, List.mem_append] ; simpa using hmiss)
  · intro col hcol hmiss
    fin_cases hcol <;>
      (simp [check_required_columns, _REQUIRED_COLUMNS, _REQUIRED_VARIABLE_COLUMNS,
        tryAssert, hmiss, List.mem_append] ; simpa using hmiss)

/-- Witness for check_required_columns_spec: a table missing the Ground
Floor Height column and both required variable columns. -/
theorem check_required_columns_spec_witness :
    (check_required_columns ⟨["Object ID", "Extraction Method"], []⟩).2 =
      ⟨["Object ID", "Extraction Method"], []⟩ ∧
    ("Required column " ++ "Ground Floor Height" ++ " not found in exposure data.") ∈
      (check_required_columns ⟨["Object ID", "Extraction Method"], []⟩).1 ∧
    ("Required variable column " ++ "Damage Function: \x7b\x7d" ++
        " not found in exposure data.") ∈
      (check_required_columns ⟨["Object ID", "Extraction Method"], []⟩).1 :=
  ⟨(check_required_columns_spec ⟨["Object ID", "Extraction Method"], []⟩).1,
   (check_required_columns_spec ⟨["Object ID", "Extraction Method"], []⟩).2.1
     "Ground Floor Height" (by decide) (by decide),
   (check_required_columns_spec ⟨["Object ID", "Extraction Method"], []⟩).2.2
     "Damage Function: \x7b\x7d" (by decide) (by decide)⟩

/-! ## Damage function truncation theorems -/

theorem self_mem_insertPoint (t v : ℚ) (c : List (ℚ × ℚ)) :
    (t, v) ∈ insertPoint t v c := by
  induction c with
  | nil => simp [insertPoint]
  | cons q rest ih =>
    obtain ⟨d, w⟩ := q
    simp only [insertPoint]
    by_cases h1 : t < d
    · rw [if_pos h1]
      exact List.mem_cons_self _ _
    · by_cases h2 : t = d
      · rw [if_neg h1, if_pos h2]
        exact List.mem_cons_self _ _
      · rw [if_neg h1, if_neg h2]
        exact List.mem_cons_of_mem _ ih

theorem mem_insertPoint_of_ne (t v : ℚ) (c : List (ℚ × ℚ)) (p : ℚ × ℚ)
    (hp : p ∈ c) (hne : p.1 ≠ t) : p ∈ insertPoint t v c := by
  induction c with
  | nil => cases hp
  | cons q rest ih =>
    obtain ⟨d, w⟩ := q
    simp only [insertPoint]
    by_cases h1 : t < d
    · rw [if_pos h1]
      exact List.mem_cons_of_mem _ hp
    · by_cases h2 : t = d
      · rw [if_neg h1, if_pos h2]
        rcases List.mem_cons.mp hp with rfl | hp'
        · exact absurd h2.symm hne
        · exact List.mem_cons_of_mem _ hp'
      · rw [if_neg h1, if_neg h2]
        rcases List.mem_cons.mp hp with rfl | hp'
        · exact List.mem_cons_self _ _
        · exact List.mem_cons_of_mem _ (ih hp')

theorem mem_insertPoint (t v : ℚ) (c : List (ℚ × ℚ)) (p : ℚ × ℚ)
    (hp : p ∈ insertPoint t v c) : p ∈ c ∨ p = (t, v) := by
  induction c with
  | nil =>
    simp only [insertPoint, List.mem_singleton] at hp
    exact Or.inr hp
  | cons q rest ih =>
    obtain ⟨d, w⟩ := q
    simp only [insertPoint] at hp
    by_cases h1 : t < d
    · rw [if_pos h1] at hp
      rcases List.mem_cons.mp hp with rfl | hp'
      · exact Or.inr rfl
      · exact Or.inl hp'
    · rw [if_neg h1] at hp
      by_cases h2 : t = d
      · rw [if_pos h2] at hp
        rcases List.mem_cons.mp hp with rfl | hp'
        · exact Or.inr rfl
        · exact Or.inl (List.mem_cons_of_mem _ hp')
      · rw [if_neg h2] at hp
        rcases List.mem_cons.mp hp with rfl | hp'
        · exact Or.inl (List.mem_cons_self _ _)
        · rcases ih hp' with h | h
          · exact Or.inl (List.mem_cons_of_mem _ h)
          · exact Or.inr h

theorem interpFrom_cons_zero_eq (d e x : ℚ) (L : List (ℚ × ℚ)) :
    interpFrom d 0 ((e, 0) :: L) x =
      if x ≤ e then 0 + (0 - 0) * (x - d) / (e - d) else interpFrom e 0 L x := rfl

theorem interpFrom_cons_zero (d t x : ℚ) (L : List (ℚ × ℚ)) (hx : x ≤ t) :
    interpFrom d 0 ((t, 0) :: L) x = 0 := by
  rw [interpFrom_cons_zero_eq, if_pos hx]
  ring

theorem interp_cons_eq (e v x : ℚ) (L : List (ℚ × ℚ)) :
    interp ((e, v) :: L) x = if x ≤ e then v else interpFrom e v L x := rfl

theorem interpFrom_truncated_zero (t : ℚ) (rest : List (ℚ × ℚ)) :
    ∀ d x : ℚ, x ≤ t →
      interpFrom d 0
        ((insertPoint t 0 rest).map
          (fun p => if p.1 < t then (p.1, (0 : ℚ)) else p)) x = 0 := by
  induction rest with
  | nil =>
    intro d x hx
    simp only [insertPoint, List.map_cons, List.map_nil]
    rw [if_neg (lt_irrefl t)]
    exact interpFrom_cons_zero d t x [] hx
  | cons q rr ih =>
    intro d x hx
    obtain ⟨d1, v1⟩ := q
    simp only [insertPoint]
    by_cases h1 : t < d1
    · rw [if_pos h1]
      simp only [List.map_cons]
      rw [if_neg (lt_irrefl t)]
      exact interpFrom_cons_zero d t x _ hx
    · by_cases h2 : t = d1
      · rw [if_neg h1, if_pos h2]
        simp only [List.map_cons]
        rw [if_neg (lt_irrefl t)]
        exact interpFrom_cons_zero d t x _ hx
      · rw [if_neg h1, if_neg h2]
        have hd1 : d1 < t := lt_of_le_of_ne (not_lt.mp h1) (fun h => h2 h.symm)
        simp only [List.map_cons]
        rw [if_pos hd1, interpFrom_cons_zero_eq]
        by_cases hxd : x ≤ d1
        · rw [if_pos hxd]
          ring
        · rw [if_neg hxd]
          exact ih d1 x hx

theorem interp_truncate_zero (c : List (ℚ × ℚ)) (t x : ℚ) (hx : x ≤ t) :
    interp (truncate_damage_function c t) x = 0 := by
  cases c with
  | nil =>
    simp only [truncate_damage_function, insertPoint, List.map_cons, List.map_nil]
    rw [if_neg (lt_irrefl t), interp_cons_eq, if_pos hx]
  | cons q rest =>
    obtain ⟨d, w⟩ := q
    simp only [truncate_damage_function, insertPoint]
    by_cases h1 : t < d
    · rw [if_pos h1]
      simp only [List.map_cons]
      rw [if_neg (lt_irrefl t), interp_cons_eq, if_pos hx]
    · by_cases h2 : t = d
      · rw [if_neg h1, if_pos h2]
        simp only [List.map_cons]
        rw [if_neg (lt_irrefl t), interp_cons_eq, if_pos hx]
      · rw [if_neg h1, if_neg h2]
        have hd : d < t := lt_of_le_of_ne (not_lt.mp h1) (fun h => h2 h.symm)
        simp only [List.map_cons]
        rw [if_pos hd, interp_cons_eq]
        by_cases hxd : x ≤ d
        · rw [if_pos hxd]
        · rw [if_neg hxd]
          exact interpFrom_truncated_zero t rest d x hx

/-- C4: the truncated damage curve evaluates, under piecewise-linear
interpolation, to damage fraction zero at every depth up to — in
particular at all depths below — the truncation depth; it contains the
inserted zero-crossing breakpoint at the truncation depth; every original
breakpoint above the truncation depth is retained unchanged; and no
breakpoint above the truncation depth is added. -/
theorem truncate_damage_function_spec (c : List (ℚ × ℚ)) (t : ℚ) :
    (∀ x : ℚ, x ≤ t → interp (truncate_damage_function c t) x = 0) ∧
    ((t, 0) ∈ truncate_damage_function c t) ∧
    (∀ p ∈ c, t < p.1 → p ∈ truncate_damage_function c t) ∧
    (∀ p ∈ truncate_damage_function c t, t < p.1 → p ∈ c) := by
  refine ⟨fun x hx => interp_truncate_zero c t x hx, ?_, ?_, ?_⟩
  · refine List.mem_map.mpr ⟨(t, 0), self_mem_insertPoint t 0 c, ?_⟩
    simp
  · intro p hp hlt
    have hnlt : ¬ p.1 < t := not_lt.mpr (le_of_lt hlt)
    refine List.mem_map.mpr ⟨p, mem_insertPoint_of_ne t 0 c p hp (ne_of_gt hlt), ?_⟩
    simp [hnlt]
  · intro p hp hlt
    rcases List.mem_map.mp hp with ⟨q, hq, rfl⟩
    by_cases h : q.1 < t
    · simp only [if_pos h] at hlt
      exact absurd (lt_trans hlt h) (lt_irrefl t)
    · simp only [if_neg h] at hlt ⊢
      rcases mem_insertPoint t 0 c q hq with hmem | rfl
      · exact hmem
      · exact absurd hlt (lt_irrefl t)

/-- Witness for truncate_damage_function_spec on the spec scenario curve
truncated at 3/2: the truncated curve interpolates to zero at depth 5/4,
holds the zero-crossing breakpoint at 3/2, and retains the original
breakpoint (2, 1) above the truncation depth. -/
theorem truncate_damage_function_spec_witness :
    interp (truncate_damage_function exCurve (3/2)) (5/4) = 0 ∧
    ((3/2 : ℚ), (0 : ℚ)) ∈ truncate_damage_function exCurve (3/2) ∧
    ((2 : ℚ), (1 : ℚ)) ∈ truncate_damage_function exCurve (3/2) :=
  ⟨(truncate_damage_function_spec exCurve (3/2)).1 (5/4) (by norm_num),
   (truncate_damage_function_spec exCurve (3/2)).2.1,
   (truncate_damage_function_spec exCurve (3/2)).2.2.1 (2, 1) (by norm_num [exCurve])
     (by norm_num)⟩

/-! ## preprocess_jrc_damage_values theorems -/

/-- C10: for every table containing the requested country, the returned
lookup satisfies total = structure + content and content = structure times
the building-type content-inventory factor, for all three building
types. -/
theorem preprocess_jrc_damage_values_spec (table : List JrcRow)
    (country : String) (adj : JrcAdjustments) (vals : JrcDamageValues)
    (h : preprocess_jrc_damage_values table country adj = .ok vals) :
    (vals.residential.total = vals.residential.struc + vals.residential.content ∧
      vals.residential.content =
        vals.residential.struc * adj.max_damage_content_inventory_res) ∧
    (vals.commercial.total = vals.commercial.struc + vals.commercial.content ∧
      vals.commercial.content =
        vals.commercial.struc * adj.max_damage_content_inventory_com) ∧
    (vals.industrial.total = vals.industrial.struc + vals.industrial.content ∧
      vals.industrial.content =
        vals.industrial.struc * adj.max_damage_content_inventory_ind) := by
  simp only [preprocess_jrc_damage_values] at h
  split at h
  · exact absurd h (by simp)
  · injection h with h
    subst h
    exact ⟨⟨rfl, rfl⟩, ⟨rfl, rfl⟩, ⟨rfl, rfl⟩⟩

/-- Witness for preprocess_jrc_damage_values_spec on the one-row table. -/
theorem preprocess_jrc_damage_values_spec_witness :
    ((JrcDamageValues.mk ⟨360, 180, 540⟩ ⟨720, 720, 1440⟩
        ⟨1080, 1620, 2700⟩).residential.total =
      (JrcDamageValues.mk ⟨360, 180, 540⟩ ⟨720, 720, 1440⟩
        ⟨1080, 1620, 2700⟩).residential.struc +
      (JrcDamageValues.mk ⟨360, 180, 540⟩ ⟨720, 720, 1440⟩
        ⟨1080, 1620, 2700⟩).residential.content ∧
      (JrcDamageValues.mk ⟨360, 180, 540⟩ ⟨720, 720, 1440⟩
        ⟨1080, 1620, 2700⟩).residential.content =
      (JrcDamageValues.mk ⟨360, 180, 540⟩ ⟨720, 720, 1440⟩
        ⟨1080, 1620, 2700⟩).residential.struc *
        default_jrc_max_damage_adjustment_values.max_damage_content_inventory_res) ∧
    ((JrcDamageValues.mk ⟨360, 180, 540⟩ ⟨720, 720, 1440⟩
        ⟨1080, 1620, 2700⟩).commercial.total =
      (JrcDamageValues.mk ⟨360, 180, 540⟩ ⟨720, 720, 1440⟩
        ⟨1080, 1620, 2700⟩).commercial.struc +
      (JrcDamageValues.mk ⟨360, 180, 540⟩ ⟨720, 720, 1440⟩
        ⟨1080, 1620, 2700⟩).commercial.content ∧
      (JrcDamageValues.mk ⟨360, 180, 540⟩ ⟨720, 720, 1440⟩
        ⟨1080, 1620, 2700⟩).commercial.content =
      (JrcDamageValues.mk ⟨360, 180, 540⟩ ⟨720, 720, 1440⟩
        ⟨1080, 1620, 2700⟩).commercial.struc *
        default_jrc_max_damage_adjustment_values.max_damage_content_inventory_com) ∧
    ((JrcDamageValues.mk ⟨360, 180, 540⟩ ⟨720, 720, 1440⟩
        ⟨1080, 1620, 2700⟩).industrial.total =
      (JrcDamageValues.mk ⟨360, 180, 540⟩ ⟨720, 720, 1440⟩
        ⟨1080, 1620, 2700⟩).industrial.struc +
      (JrcDamageValues.mk ⟨360, 180, 540⟩ ⟨720, 720, 1440⟩
        ⟨1080, 1620, 2700⟩).industrial.content ∧
      (JrcDamageValues.mk ⟨360, 180, 540⟩ ⟨720, 720, 1440⟩
        ⟨1080, 1620, 2700⟩).industrial.content =
      (JrcDamageValues.mk ⟨360, 180, 540⟩ ⟨720, 720, 1440⟩
        ⟨1080, 1620, 2700⟩).industrial.struc *
        default_jrc_max_damage_adjustment_values.max_damage_content_inventory_ind) := by
  have h : preprocess_jrc_damage_values exJrcTable "Germany"
      default_jrc_max_damage_adjustment_values =
      .ok (JrcDamageValues.mk ⟨360, 180, 540⟩ ⟨720, 720, 1440⟩
        ⟨1080, 1620, 2700⟩) := by
    norm_num [preprocess_jrc_damage_values, exJrcTable, jrcEntry,
      default_jrc_max_damage_adjustment_values]
  exact preprocess_jrc_damage_values_spec exJrcTable "Germany"
    default_jrc_max_damage_adjustment_values
    (JrcDamageValues.mk ⟨360, 180, 540⟩ ⟨720, 720, 1440⟩ ⟨1080, 1620, 2700⟩) h

end HydromtFiat
